import Mathlib

/-!
Shallow embedding of the `saturn_tagging` NaN-boxing crate.

64-bit machine words (`u64`) are modelled as `Nat` values below `2^64`;
signed 64-bit integers (`i64`) as `Int` via two's-complement
reinterpretation (`toI64`).  Bitwise complement `!m` on `u64` is modelled
as `(2^64 - 1) ^^^ m` (`compl64`).
-/

namespace SaturnTagging

/-- Rust's `Result` type: `Ok` carries a success value, `Err` an error. -/
inductive Result (α ε : Type) where
  | Ok : α → Result α ε
  | Err : ε → Result α ε
deriving DecidableEq, Repr

/-- Reinterpret a `u64` bit pattern (a `Nat` below `2^64`) as an `i64`
(two's complement). -/
def toI64 (n : Nat) : Int :=
  if n < 2 ^ 63 then (n : Int) else (n : Int) - 2 ^ 64

namespace bit_utils

/-- Source: `pub const NAN_MASK: u64 = 0x7ff << 52;` -/
def NAN_MASK : Nat := 0x7ff <<< 52

/-- Source: `pub const TAG_SHIFT: usize = 48;` -/
def TAG_SHIFT : Nat := 48

/-- Source: `pub const TAG_MASK: u64 = 0xf << 48;` -/
def TAG_MASK : Nat := 0xf <<< 48

/-- Source: `pub const RESERVED_BITS_MASK: u64 = NAN_MASK ^ TAG_MASK;` -/
def RESERVED_BITS_MASK : Nat := NAN_MASK ^^^ TAG_MASK

/-- Source: `pub const SIGN_MASK: u64 = 1 << 63;` -/
def SIGN_MASK : Nat := 1 <<< 63

/-- Source: `pub const RESERVED_BITS_AND_SIGN: u64 = RESERVED_BITS_MASK | SIGN_MASK;` -/
def RESERVED_BITS_AND_SIGN : Nat := RESERVED_BITS_MASK ||| SIGN_MASK

/-- Bitwise complement `!m` on `u64`. -/
def compl64 (m : Nat) : Nat := (2 ^ 64 - 1) ^^^ m

/-- Source: `reserved_bits_clean`: `true` for any value which does not
store information in the reserved bits (the masked bits 48–63 are all
zero or all one). -/
def reserved_bits_clean (n : Nat) : Bool :=
  let masked := n &&& RESERVED_BITS_AND_SIGN
  masked == 0 || masked == RESERVED_BITS_AND_SIGN

/-- Source: `is_a_nan`: the 11-bit exponent field is all ones. -/
def is_a_nan (n : Nat) : Bool := (n &&& NAN_MASK) == NAN_MASK

/-- Bit pattern of `core::f64::INFINITY`. -/
def INFINITY_BITS : Nat := 0x7ff0000000000000

/-- Bit pattern of `core::f64::NAN` (the canonical quiet NaN on Rust
platforms). -/
def NAN_BITS : Nat := 0x7ff8000000000000

/-- Bit-level meaning of `f64::from_bits(n).is_infinite()`: ignoring the
sign bit, `n` equals the +Infinity pattern (exponent all ones, mantissa
zero). -/
def f64_is_infinite_bits (n : Nat) : Bool :=
  (n &&& compl64 SIGN_MASK) == INFINITY_BITS

/-- Source: `is_the_nan_or_ifty`:
`f64::from_bits(n).is_infinite() || ((n & !SIGN_MASK) == core::f64::NAN.to_bits())`. -/
def is_the_nan_or_ifty (n : Nat) : Bool :=
  f64_is_infinite_bits n || ((n &&& compl64 SIGN_MASK) == NAN_BITS)

/-- Source: `is_nanbox(n) = is_a_nan(n) && !is_the_nan_or_ifty(n)`. -/
def is_nanbox (n : Nat) : Bool := is_a_nan n && !is_the_nan_or_ifty n

/-- Source: `tag_of(n) = (((n & TAG_MASK) >> TAG_SHIFT) as u8) & 0x0f`.
The `as u8` cast is the `% 256` truncation. -/
def tag_of (n : Nat) : Nat := (((n &&& TAG_MASK) >>> TAG_SHIFT) % 256) &&& 0x0f

/-- Source: `signed_untag`: clear `RESERVED_BITS_MASK` from `n`,
preserving the sign bit; `(n as i64) < 0` is `toI64 n < 0`. -/
def signed_untag (n : Nat) : Int :=
  if toI64 n < 0 then
    toI64 (n ||| RESERVED_BITS_MASK)
  else
    toI64 (n &&& compl64 RESERVED_BITS_MASK)

/-- Source: `unsigned_untag(n) = n & !(RESERVED_BITS_MASK | SIGN_MASK)`. -/
def unsigned_untag (n : Nat) : Nat :=
  n &&& compl64 (RESERVED_BITS_MASK ||| SIGN_MASK)

/-- Source: `nan_tag(n) = n | NAN_MASK`. -/
def nan_tag (n : Nat) : Nat := n ||| NAN_MASK

end bit_utils

/-- Source: `pub struct TypeId(u64);` — a wide type identifier. -/
structure TypeId where
  val : Nat
deriving DecidableEq, Repr

/-- Source: `pub struct ThinTypeId(u8);` — a narrow type identifier
stored as a `u8`. -/
structure ThinTypeId where
  val : Nat
deriving DecidableEq, Repr

/-- Source: `pub struct TypeIdTooLargeError { id: TypeId }`. -/
structure TypeIdTooLargeError where
  id : TypeId
deriving DecidableEq, Repr

/-- Source: `pub struct TypeError { expected: TypeId, found: TypeId }`. -/
structure TypeError where
  expected : TypeId
  found : TypeId
deriving DecidableEq, Repr

/-- Rust's `Result::map`: apply a function to the success value. -/
def Result.map {α β ε : Type} (f : α → β) : Result α ε → Result β ε
  | .Ok a => .Ok (f a)
  | .Err e => .Err e

/-- Source: `impl TryFrom<TypeId> for ThinTypeId`: succeeds iff the value
fits in 4 bits; `id.0 as _` is the truncating `u64 -> u8` cast. -/
def ThinTypeId.try_from (id : TypeId) : Result ThinTypeId TypeIdTooLargeError :=
  if id.val ≤ 0xf then
    .Ok ⟨id.val % 256⟩
  else
    .Err ⟨id⟩

/-- Source: `impl From<ThinTypeId> for TypeId` (numeric identity). -/
def TypeId.from_thin (t : ThinTypeId) : TypeId := ⟨t.val⟩

/-- Source: `ThinTypeId::shift_for_tagging`:
`u64::from(self.0) << bit_utils::TAG_SHIFT` (the debug-only
`assert_size` is a no-op in release builds). -/
def ThinTypeId.shift_for_tagging (t : ThinTypeId) : Nat :=
  t.val <<< bit_utils.TAG_SHIFT

/-- Source: `ThinTypeId::matches(self, n) =
is_nanbox(n) && (tag_of(n) == self.0)`. -/
def ThinTypeId.matches (t : ThinTypeId) (n : Nat) : Bool :=
  bit_utils.is_nanbox n && (bit_utils.tag_of n == t.val)

/-- Source: `ThinTypeId::tag(self, to_tag) =
(nan_tag(to_tag) & !TAG_MASK) | self.shift_for_tagging()` (the
debug-only `assert_is_clean` is a no-op in release builds). -/
def ThinTypeId.tag (t : ThinTypeId) (to_tag : Nat) : Nat :=
  (bit_utils.nan_tag to_tag &&& bit_utils.compl64 bit_utils.TAG_MASK) |||
    t.shift_for_tagging

/-- Source: `ThinTypeId::try_unsigned_untag`: if `matches`, `Ok` of
`unsigned_untag`; else a `TypeError` with the expected and found ids. -/
def ThinTypeId.try_unsigned_untag (t : ThinTypeId) (to_untag : Nat) :
    Result Nat TypeError :=
  if t.matches to_untag then
    .Ok (bit_utils.unsigned_untag to_untag)
  else
    .Err ⟨TypeId.from_thin t, TypeId.from_thin ⟨bit_utils.tag_of to_untag⟩⟩

/-- Source: `ThinTypeId::try_signed_untag`: if `matches`, `Ok` of
`signed_untag`; else a `TypeError` with the expected and found ids. -/
def ThinTypeId.try_signed_untag (t : ThinTypeId) (to_untag : Nat) :
    Result Int TypeError :=
  if t.matches to_untag then
    .Ok (bit_utils.signed_untag to_untag)
  else
    .Err ⟨TypeId.from_thin t, TypeId.from_thin ⟨bit_utils.tag_of to_untag⟩⟩

end SaturnTagging

namespace SaturnTagging

namespace BitLemmas

theorem testBit_lt_of_le {a k i : Nat} (h : a < 2 ^ k) (hk : k ≤ i) :
    a.testBit i = false :=
  Nat.testBit_lt_two_pow (lt_of_lt_of_le h (Nat.pow_le_pow_right (by norm_num) hk))

theorem and_shiftLeft_eq_zero {a k : Nat} (m : Nat) (h : a < 2 ^ k) :
    a &&& (m <<< k) = 0 := by
  apply Nat.eq_of_testBit_eq
  intro i
  simp only [Nat.testBit_and, Nat.testBit_shiftLeft, Nat.zero_testBit]
  by_cases hik : k ≤ i
  · simp [testBit_lt_of_le h hik]
  · simp [hik]

theorem or_shiftLeft_eq_add {a b k : Nat} (h : a < 2 ^ k) :
    (b <<< k) ||| a = b * 2 ^ k + a := by
  calc (b <<< k) ||| a = 2 ^ k * b ||| a := by rw [Nat.shiftLeft_eq, Nat.mul_comm]
    _ = 2 ^ k * b + a := (Nat.mul_add_lt_is_or h b).symm
    _ = b * 2 ^ k + a := by rw [Nat.mul_comm]

theorem shiftLeft_or_distrib (a b k : Nat) :
    (a ||| b) <<< k = (a <<< k) ||| (b <<< k) := by
  apply Nat.eq_of_testBit_eq
  intro i
  simp only [Nat.testBit_shiftLeft, Nat.testBit_or]
  by_cases h : k ≤ i <;> simp [h, Bool.and_or_distrib_left]

theorem shiftLeft_and_distrib (a b k : Nat) :
    (a &&& b) <<< k = (a <<< k) &&& (b <<< k) := by
  apply Nat.eq_of_testBit_eq
  intro i
  simp only [Nat.testBit_shiftLeft, Nat.testBit_and]
  by_cases h : k ≤ i <;> simp [h]

theorem or_mod_two_pow (a b k : Nat) :
    (a ||| b) % 2 ^ k = (a % 2 ^ k) ||| (b % 2 ^ k) := by
  apply Nat.eq_of_testBit_eq
  intro i
  simp only [Nat.testBit_mod_two_pow, Nat.testBit_or]
  by_cases h : i < k <;> simp [h]

theorem or_shiftRight_distrib (a b k : Nat) :
    (a ||| b) >>> k = (a >>> k) ||| (b >>> k) := by
  apply Nat.eq_of_testBit_eq
  intro i
  simp [Nat.testBit_shiftRight, Nat.testBit_or]

theorem or_and_self (a m : Nat) : (a ||| m) &&& m = m := by
  apply Nat.eq_of_testBit_eq
  intro i
  simp only [Nat.testBit_and, Nat.testBit_or]
  cases a.testBit i <;> cases m.testBit i <;> rfl

theorem or_ones {a k : Nat} (h : a < 2 ^ k) : a ||| (2 ^ k - 1) = 2 ^ k - 1 := by
  apply Nat.eq_of_testBit_eq
  intro i
  simp only [Nat.testBit_or, Nat.testBit_two_pow_sub_one]
  by_cases hik : i < k
  · simp [hik]
  · simp [hik, testBit_lt_of_le h (le_of_not_lt hik)]

theorem or_ones_eval (a k : Nat) :
    a ||| (2 ^ k - 1) = a / 2 ^ k * 2 ^ k + (2 ^ k - 1) := by
  apply Nat.eq_of_testBit_eq
  intro i
  have h1 : (2 : Nat) ^ k - 1 < 2 ^ k := by
    have := Nat.two_pow_pos k
    omega
  rw [Nat.mul_comm, Nat.testBit_mul_pow_two_add _ h1, ← Nat.shiftRight_eq_div_pow]
  simp only [Nat.testBit_or, Nat.testBit_two_pow_sub_one, Nat.testBit_shiftRight]
  by_cases h : i < k
  · simp [h]
  · have hki : k + (i - k) = i := by omega
    simp [h, hki, show ¬ i < k from h]

theorem and_compl64_and {x m : Nat} (hm : m < 2 ^ 64) :
    (x &&& bit_utils.compl64 m) &&& m = 0 := by
  apply Nat.eq_of_testBit_eq
  intro i
  simp only [bit_utils.compl64, Nat.testBit_and, Nat.testBit_xor,
    Nat.testBit_two_pow_sub_one, Nat.zero_testBit]
  by_cases h : i < 64
  · cases htm : m.testBit i <;> simp [h, htm]
  · simp [testBit_lt_of_le hm (le_of_not_lt h)]

theorem and_fifteen {t : Nat} (ht : t < 16) : t &&& 0xf = t := by
  have h4 : (0xf : Nat) = 2 ^ 4 - 1 := by norm_num
  rw [h4, Nat.and_pow_two_sub_one_of_lt_two_pow (by omega)]

theorem and_shiftLeft_mask (n m k : Nat) :
    n &&& (m <<< k) = ((n >>> k) &&& m) <<< k := by
  apply Nat.eq_of_testBit_eq
  intro i
  simp only [Nat.testBit_and, Nat.testBit_shiftLeft, Nat.testBit_shiftRight]
  by_cases h : k ≤ i
  · have hki : k + (i - k) = i := by omega
    simp [h, hki, Bool.and_comm, Bool.and_left_comm]
  · simp [h]

theorem or_shiftLeft_eval (a m k : Nat) :
    a ||| (m <<< k) = (a / 2 ^ k ||| m) * 2 ^ k + a % 2 ^ k := by
  apply Nat.eq_of_testBit_eq
  intro i
  have hmod : a % 2 ^ k < 2 ^ k := Nat.mod_lt _ (Nat.two_pow_pos k)
  rw [Nat.mul_comm, Nat.testBit_mul_pow_two_add _ hmod, ← Nat.shiftRight_eq_div_pow]
  simp only [Nat.testBit_or, Nat.testBit_shiftLeft, Nat.testBit_shiftRight]
  by_cases h : k ≤ i
  · have hki : k + (i - k) = i := by omega
    simp [h, hki, show ¬ i < k by omega]
  · simp [h, show i < k by omega, Nat.testBit_mod_two_pow]

theorem or_small {A t k : Nat} (ht : t < 2 ^ k) (hA : A % 2 ^ k = 0) :
    A ||| t = A + t := by
  have hA' : 2 ^ k * (A / 2 ^ k) = A := by
    have := Nat.div_add_mod A (2 ^ k)
    omega
  rw [← hA']
  exact (Nat.mul_add_lt_is_or ht _).symm

theorem shiftLeft_inj {a b k : Nat} : a <<< k = b <<< k ↔ a = b := by
  constructor
  · intro h
    have h2 := congrArg (· >>> k) h
    simpa using h2
  · rintro rfl
    rfl

end BitLemmas

namespace bit_utils

open BitLemmas

theorem compl64_TAG_MASK_eq : compl64 TAG_MASK = (2 ^ 48 - 1) ||| (0xfff <<< 52) := by
  decide

theorem compl64_SIGN_MASK_eq : compl64 SIGN_MASK = 2 ^ 63 - 1 := by decide

theorem compl64_untag_mask_eq :
    compl64 (RESERVED_BITS_MASK ||| SIGN_MASK) = 2 ^ 48 - 1 := by decide

theorem compl64_RESERVED_eq :
    compl64 RESERVED_BITS_MASK = (2 ^ 48 - 1) ||| (1 <<< 63) := by decide

theorem RESERVED_BITS_MASK_eq : RESERVED_BITS_MASK = 0x7fff <<< 48 := by decide

theorem RESERVED_BITS_AND_SIGN_eq : RESERVED_BITS_AND_SIGN = 0xffff <<< 48 := by
  decide

/-- Arithmetic form of `tag_of`: the tag nibble is bits 48–51. -/
theorem tag_of_eq (n : Nat) : tag_of n = n / 2 ^ 48 % 16 := by
  have h1 : n / 2 ^ 48 % 16 < 256 := by omega
  rw [tag_of, TAG_MASK, TAG_SHIFT, and_shiftLeft_mask, Nat.shiftLeft_shiftRight,
    Nat.shiftRight_eq_div_pow, show (0xf : Nat) = 2 ^ 4 - 1 by norm_num,
    Nat.and_pow_two_sub_one_eq_mod, Nat.and_pow_two_sub_one_eq_mod]
  norm_num [Nat.mod_eq_of_lt h1, Nat.mod_mod_of_dvd]

/-- Arithmetic form of `is_a_nan`: the 11 exponent bits 52–62 are all ones. -/
theorem is_a_nan_iff (n : Nat) : is_a_nan n = true ↔ n / 2 ^ 52 % 2 ^ 11 = 0x7ff := by
  rw [is_a_nan, NAN_MASK, and_shiftLeft_mask, Nat.shiftRight_eq_div_pow,
    show (0x7ff : Nat) = 2 ^ 11 - 1 by norm_num, Nat.and_pow_two_sub_one_eq_mod,
    beq_iff_eq, shiftLeft_inj]

/-- Arithmetic form of `is_the_nan_or_ifty`: ignoring the sign bit, `n` is
the +Infinity pattern or the canonical quiet-NaN pattern. -/
theorem is_the_nan_or_ifty_iff (n : Nat) :
    is_the_nan_or_ifty n = true ↔
      n % 2 ^ 63 = 0x7ff0000000000000 ∨ n % 2 ^ 63 = 0x7ff8000000000000 := by
  rw [is_the_nan_or_ifty, f64_is_infinite_bits, compl64_SIGN_MASK_eq,
    Nat.and_pow_two_sub_one_eq_mod, INFINITY_BITS, NAN_BITS]
  simp

/-- Arithmetic form of `reserved_bits_clean`: bits 48–63 are all zero or
all one. -/
theorem reserved_bits_clean_iff (n : Nat) :
    reserved_bits_clean n = true ↔
      n / 2 ^ 48 % 2 ^ 16 = 0 ∨ n / 2 ^ 48 % 2 ^ 16 = 0xffff := by
  rw [reserved_bits_clean]
  simp only [RESERVED_BITS_AND_SIGN_eq, and_shiftLeft_mask,
    Nat.shiftRight_eq_div_pow, show (0xffff : Nat) = 2 ^ 16 - 1 by norm_num,
    Nat.and_pow_two_sub_one_eq_mod, Bool.or_eq_true, beq_iff_eq]
  simp only [Nat.shiftLeft_eq]
  omega

/-- Arithmetic form of `unsigned_untag`: keep only the low 48 bits. -/
theorem unsigned_untag_eq (n : Nat) : unsigned_untag n = n % 2 ^ 48 := by
  rw [unsigned_untag, compl64_untag_mask_eq, Nat.and_pow_two_sub_one_eq_mod]

/-- Evaluation of `signed_untag` on a word whose sign bit is clear. -/
theorem signed_untag_of_lt {n : Nat} (h : n < 2 ^ 63) :
    signed_untag n = ((n % 2 ^ 48 : Nat) : Int) := by
  have hpos : ¬ toI64 n < 0 := by
    rw [toI64, if_pos h]
    omega
  rw [signed_untag, if_neg hpos, compl64_RESERVED_eq, Nat.and_or_distrib_left,
    Nat.and_pow_two_sub_one_eq_mod, and_shiftLeft_mask, Nat.shiftRight_eq_div_pow,
    Nat.div_eq_of_lt h]
  have h01 : (0 : Nat) &&& 1 = 0 := by decide
  rw [h01, Nat.zero_shiftLeft, Nat.or_zero, toI64,
    if_pos (show n % 2 ^ 48 < 2 ^ 63 by omega)]

/-- Evaluation of `signed_untag` on a word whose sign bit is set: all the
reserved bits 48–62 are forced to one. -/
theorem signed_untag_of_ge {n : Nat} (h1 : 2 ^ 63 ≤ n) (h2 : n < 2 ^ 64) :
    signed_untag n = toI64 ((n / 2 ^ 48 ||| 0x7fff) * 2 ^ 48 + n % 2 ^ 48) := by
  have hneg : toI64 n < 0 := by
    rw [toI64, if_neg (by omega)]
    have : (n : Int) < 2 ^ 64 := by exact_mod_cast h2
    omega
  rw [signed_untag, if_pos hneg, RESERVED_BITS_MASK_eq, or_shiftLeft_eval]

end bit_utils

namespace TagFacts

open BitLemmas

/-- Evaluation of `tag` on a clean non-negative payload (bits 48–63 zero):
the result is the payload with the tag nibble and a fully-set exponent
field above it. -/
theorem tag_eq_of_nonneg {t low : Nat} (ht : t < 16) (hlow : low < 2 ^ 48) :
    (ThinTypeId.mk t).tag low = low + t * 2 ^ 48 + 0x7ff * 2 ^ 52 := by
  show (bit_utils.nan_tag low &&& bit_utils.compl64 bit_utils.TAG_MASK) ||| t <<< 48 = _
  have h1 : bit_utils.nan_tag low = 0x7ff * 2 ^ 52 + low := by
    rw [bit_utils.nan_tag, bit_utils.NAN_MASK, or_shiftLeft_eval,
      Nat.div_eq_of_lt (show low < 2 ^ 52 by omega), Nat.zero_or,
      Nat.mod_eq_of_lt (show low < 2 ^ 52 by omega)]
  rw [h1, bit_utils.compl64_TAG_MASK_eq, Nat.and_or_distrib_left,
    Nat.and_pow_two_sub_one_eq_mod, and_shiftLeft_mask, Nat.shiftRight_eq_div_pow]
  rw [show (0x7ff * 2 ^ 52 + low) % 2 ^ 48 = low by omega,
    show (0x7ff * 2 ^ 52 + low) / 2 ^ 52 = 0x7ff by omega,
    show (0x7ff : Nat) &&& 0xfff = 0x7ff by decide]
  have h2 : low ||| (0x7ff <<< 52) = 0x7ff * 2 ^ 52 + low := by
    rw [or_shiftLeft_eval, Nat.div_eq_of_lt (show low < 2 ^ 52 by omega), Nat.zero_or,
      Nat.mod_eq_of_lt (show low < 2 ^ 52 by omega)]
  rw [h2, or_shiftLeft_eval, show (0x7ff * 2 ^ 52 + low) / 2 ^ 48 = 0x7ff0 by omega,
    show (0x7ff * 2 ^ 52 + low) % 2 ^ 48 = low by omega,
    or_small (show t < 2 ^ 4 by omega) (show (0x7ff0 : Nat) % 2 ^ 4 = 0 by norm_num)]
  omega

/-- Evaluation of `tag` on a clean negative payload (bits 48–63 one): the
sign bit survives, the tag nibble is replaced, the exponent is all ones. -/
theorem tag_eq_of_neg {t low : Nat} (ht : t < 16) (hlow : low < 2 ^ 48) :
    (ThinTypeId.mk t).tag (low + 0xffff000000000000) =
      low + t * 2 ^ 48 + 0xfff * 2 ^ 52 := by
  show (bit_utils.nan_tag _ &&& bit_utils.compl64 bit_utils.TAG_MASK) ||| t <<< 48 = _
  have h1 : bit_utils.nan_tag (low + 0xffff000000000000) =
      0xfff * 2 ^ 52 + (low + 0xf * 2 ^ 48) := by
    rw [bit_utils.nan_tag, bit_utils.NAN_MASK, or_shiftLeft_eval,
      show (low + 0xffff000000000000) / 2 ^ 52 = 0xfff by omega,
      show (low + 0xffff000000000000) % 2 ^ 52 = low + 0xf * 2 ^ 48 by omega,
      show (0xfff : Nat) ||| 0x7ff = 0xfff by decide]
  rw [h1, bit_utils.compl64_TAG_MASK_eq, Nat.and_or_distrib_left,
    Nat.and_pow_two_sub_one_eq_mod, and_shiftLeft_mask, Nat.shiftRight_eq_div_pow]
  rw [show (0xfff * 2 ^ 52 + (low + 0xf * 2 ^ 48)) % 2 ^ 48 = low by omega,
    show (0xfff * 2 ^ 52 + (low + 0xf * 2 ^ 48)) / 2 ^ 52 = 0xfff by omega,
    show (0xfff : Nat) &&& 0xfff = 0xfff by decide]
  have h2 : low ||| (0xfff <<< 52) = 0xfff * 2 ^ 52 + low := by
    rw [or_shiftLeft_eval, Nat.div_eq_of_lt (show low < 2 ^ 52 by omega), Nat.zero_or,
      Nat.mod_eq_of_lt (show low < 2 ^ 52 by omega)]
  rw [h2, or_shiftLeft_eval, show (0xfff * 2 ^ 52 + low) / 2 ^ 48 = 0xfff0 by omega,
    show (0xfff * 2 ^ 52 + low) % 2 ^ 48 = low by omega,
    or_small (show t < 2 ^ 4 by omega) (show (0xfff0 : Nat) % 2 ^ 4 = 0 by norm_num)]
  omega

/-- The tag nibble of a tagged word is always the identifier used to tag,
for an arbitrary (even non-clean) payload: `tag` clears payload bits
48–51 before inserting the tag nibble. -/
theorem tag_of_tag_any {t : Nat} (p : Nat) (ht : t < 16) :
    bit_utils.tag_of ((ThinTypeId.mk t).tag p) = t := by
  show bit_utils.tag_of
    ((bit_utils.nan_tag p &&& bit_utils.compl64 bit_utils.TAG_MASK) ||| t <<< 48) = t
  set A := bit_utils.nan_tag p &&& bit_utils.compl64 bit_utils.TAG_MASK with hA
  have hz : A &&& bit_utils.TAG_MASK = 0 :=
    and_compl64_and (show bit_utils.TAG_MASK < 2 ^ 64 by decide)
  have hz2 : A / 2 ^ 48 % 16 = 0 := by
    rw [bit_utils.TAG_MASK, and_shiftLeft_mask, Nat.shiftRight_eq_div_pow,
      show (0xf : Nat) = 2 ^ 4 - 1 by norm_num, Nat.and_pow_two_sub_one_eq_mod,
      Nat.shiftLeft_eq] at hz
    omega
  rw [bit_utils.tag_of_eq, or_shiftLeft_eval,
    or_small (show t < 2 ^ 4 by omega) (show A / 2 ^ 48 % 2 ^ 4 = 0 by omega)]
  have hmod : A % 2 ^ 48 < 2 ^ 48 := Nat.mod_lt _ (by norm_num)
  omega

/-- Characterization of `matches` on a freshly tagged word in additive
normal form: it matches its own tag unless the word collides with one of
the four reserved special-float patterns (payload low bits all zero and
tag nibble 0 or 8). -/
theorem matches_word_iff {t low K : Nat} (ht : t < 16) (hlow : low < 2 ^ 48)
    (hK : K = 0x7ff ∨ K = 0xfff) :
    (ThinTypeId.mk t).matches (low + t * 2 ^ 48 + K * 2 ^ 52) = true ↔
      ¬(low = 0 ∧ (t = 0 ∨ t = 8)) := by
  have htag : bit_utils.tag_of (low + t * 2 ^ 48 + K * 2 ^ 52) = t := by
    rw [bit_utils.tag_of_eq]
    rcases hK with rfl | rfl <;> omega
  have hnan : bit_utils.is_a_nan (low + t * 2 ^ 48 + K * 2 ^ 52) = true := by
    rw [bit_utils.is_a_nan_iff]
    rcases hK with rfl | rfl <;> omega
  have hspec : bit_utils.is_the_nan_or_ifty (low + t * 2 ^ 48 + K * 2 ^ 52) = true ↔
      low = 0 ∧ (t = 0 ∨ t = 8) := by
    rw [bit_utils.is_the_nan_or_ifty_iff]
    rcases hK with rfl | rfl <;> omega
  simp only [ThinTypeId.matches, bit_utils.is_nanbox, hnan, htag, Bool.true_and,
    beq_self_eq_true, Bool.and_true, Bool.not_eq_true', ← Bool.not_eq_true, hspec]

end TagFacts

-- Sanity checks mirroring the crate's own test suite.
example : bit_utils.is_nanbox bit_utils.NAN_BITS = false := by decide
example : bit_utils.is_nanbox bit_utils.INFINITY_BITS = false := by decide
example : bit_utils.is_nanbox 0xfff0000000000000 = false := by decide
example : bit_utils.is_nanbox 0xfff8000000000000 = false := by decide
example : bit_utils.is_nanbox (bit_utils.nan_tag 0xdeadbeef) = true := by decide
example : bit_utils.tag_of (bit_utils.nan_tag 0xdeadbeef) = 0 := by decide
example : bit_utils.tag_of ((ThinTypeId.mk 0xa).tag 12345) = 0xa := by decide
example : (ThinTypeId.mk 0xa).try_unsigned_untag ((ThinTypeId.mk 0xa).tag 12345) =
    .Ok 12345 := by decide
example : (ThinTypeId.mk 0x2).try_signed_untag
    ((ThinTypeId.mk 0x2).tag ((2 ^ 64 - 666 : Nat))) = .Ok (-666) := by decide

-- Collision sanity checks found while exploring the claims.
example : (ThinTypeId.mk 0).tag 0 = bit_utils.INFINITY_BITS := by decide
example : (ThinTypeId.mk 8).tag 0 = bit_utils.NAN_BITS := by decide
example : (ThinTypeId.mk 0).tag 1 ≠ bit_utils.NAN_BITS := by decide
example : bit_utils.is_nanbox ((ThinTypeId.mk 0).tag 1) = true := by decide
example : (ThinTypeId.mk 0).try_unsigned_untag ((ThinTypeId.mk 0).tag 0) =
    .Err ⟨⟨0⟩, ⟨0⟩⟩ := by decide
example : bit_utils.tag_of (bit_utils.nan_tag (1 <<< 48)) = 1 := by decide
example : bit_utils.tag_of ((ThinTypeId.mk 0).tag (1 <<< 48)) = 0 := by decide

/-- C1 (counterexample): the unsigned round-trip fails as stated at the
concrete input t = 0, p = 0 — the tagged word is the +Infinity pattern,
which `is_nanbox` rejects, so untagging returns an error, not `Ok 0`. -/
theorem unsigned_roundtrip_counterexample :
    (ThinTypeId.mk 0).try_unsigned_untag ((ThinTypeId.mk 0).tag 0) =
      .Err ⟨⟨0⟩, ⟨0⟩⟩ ∧
    (ThinTypeId.mk 0).try_unsigned_untag ((ThinTypeId.mk 0).tag 0) ≠ .Ok 0 := by
  decide

/-- C1 (amended): for every tag t in 0..15 and every clean non-negative
48-bit payload p, except the two collision pairs (t, p) = (0, 0) (the
+Infinity pattern) and (t, p) = (8, 0) (the canonical NaN pattern),
`t.try_unsigned_untag (t.tag p) = Ok p`. -/
theorem unsigned_roundtrip (t p : Nat) (ht : t < 16) (hp : p < 2 ^ 48)
    (hcol : ¬(p = 0 ∧ (t = 0 ∨ t = 8))) :
    (ThinTypeId.mk t).try_unsigned_untag ((ThinTypeId.mk t).tag p) = .Ok p := by
  rw [TagFacts.tag_eq_of_nonneg ht hp, ThinTypeId.try_unsigned_untag,
    if_pos ((TagFacts.matches_word_iff ht hp (Or.inl rfl)).mpr hcol),
    bit_utils.unsigned_untag_eq,
    show (p + t * 2 ^ 48 + 0x7ff * 2 ^ 52) % 2 ^ 48 = p by omega]

/-- C1 (witness): the amended round-trip at t = 0xa, p = 12345. -/
theorem unsigned_roundtrip_witness :
    (ThinTypeId.mk 0xa).try_unsigned_untag ((ThinTypeId.mk 0xa).tag 12345) =
      .Ok 12345 :=
  unsigned_roundtrip 0xa 12345 (by norm_num) (by norm_num) (by simp)

/-- C2 (counterexample): the signed round-trip fails as stated at the
concrete input t = 0, p = 0 (a clean signed payload): the tagged word is
the +Infinity pattern, which `is_nanbox` rejects. -/
theorem signed_roundtrip_counterexample :
    (ThinTypeId.mk 0).try_signed_untag ((ThinTypeId.mk 0).tag 0) =
      .Err ⟨⟨0⟩, ⟨0⟩⟩ ∧
    (ThinTypeId.mk 0).try_signed_untag ((ThinTypeId.mk 0).tag 0) ≠ .Ok 0 := by
  decide

/-- C2 (amended): for every tag t in 0..15 and every clean signed payload
p (bits 48–63 a valid sign-extension), except when the low 48 bits of p
are all zero and t is 0 or 8 (the four special-float collision patterns),
`t.try_signed_untag (t.tag p) = Ok p` (with p read as an i64). -/
theorem signed_roundtrip (t p : Nat) (ht : t < 16) (hp : p < 2 ^ 64)
    (hclean : bit_utils.reserved_bits_clean p = true)
    (hcol : ¬(p % 2 ^ 48 = 0 ∧ (t = 0 ∨ t = 8))) :
    (ThinTypeId.mk t).try_signed_untag ((ThinTypeId.mk t).tag p) =
      .Ok (toI64 p) := by
  rcases (bit_utils.reserved_bits_clean_iff p).mp hclean with hc | hc
  · -- non-negative payload: bits 48–63 all zero, so p < 2^48
    have hp48 : p < 2 ^ 48 := by omega
    have hcol' : ¬(p = 0 ∧ (t = 0 ∨ t = 8)) := by
      intro h
      exact hcol ⟨by omega, h.2⟩
    rw [TagFacts.tag_eq_of_nonneg ht hp48, ThinTypeId.try_signed_untag,
      if_pos ((TagFacts.matches_word_iff ht hp48 (Or.inl rfl)).mpr hcol'),
      bit_utils.signed_untag_of_lt (show p + t * 2 ^ 48 + 0x7ff * 2 ^ 52 < 2 ^ 63 by omega),
      show (p + t * 2 ^ 48 + 0x7ff * 2 ^ 52) % 2 ^ 48 = p by omega,
      toI64, if_pos (show p < 2 ^ 63 by omega)]
  · -- negative payload: bits 48–63 all one
    obtain ⟨low, hlow, rfl⟩ :
        ∃ low, low < 2 ^ 48 ∧ p = low + 0xffff000000000000 := ⟨p % 2 ^ 48, by omega, by omega⟩
    have hcol' : ¬(low = 0 ∧ (t = 0 ∨ t = 8)) := by
      intro h
      exact hcol ⟨by omega, h.2⟩
    rw [TagFacts.tag_eq_of_neg ht hlow, ThinTypeId.try_signed_untag,
      if_pos ((TagFacts.matches_word_iff ht hlow (Or.inr rfl)).mpr hcol'),
      bit_utils.signed_untag_of_ge (show 2 ^ 63 ≤ low + t * 2 ^ 48 + 0xfff * 2 ^ 52 by omega)
        (show low + t * 2 ^ 48 + 0xfff * 2 ^ 52 < 2 ^ 64 by omega),
      show (low + t * 2 ^ 48 + 0xfff * 2 ^ 52) / 2 ^ 48 = 0xfff0 + t by omega,
      show (low + t * 2 ^ 48 + 0xfff * 2 ^ 52) % 2 ^ 48 = low by omega,
      ← BitLemmas.or_small (show t < 2 ^ 4 by omega)
        (show (0xfff0 : Nat) % 2 ^ 4 = 0 by norm_num),
      Nat.or_assoc, show (0x7fff : Nat) = 2 ^ 15 - 1 by norm_num,
      BitLemmas.or_ones (show t < 2 ^ 15 by omega),
      show (0xfff0 : Nat) ||| (2 ^ 15 - 1) = 0xffff by decide,
      show 0xffff * 2 ^ 48 + low = low + 0xffff000000000000 by omega]

/-- C2 (witness): the amended signed round-trip at t = 2 and the clean
negative payload pattern of −666 (the crate's own `signed_number` test). -/
theorem signed_roundtrip_witness :
    (ThinTypeId.mk 2).try_signed_untag ((ThinTypeId.mk 2).tag (2 ^ 64 - 666)) =
      .Ok (toI64 (2 ^ 64 - 666)) :=
  signed_roundtrip 2 (2 ^ 64 - 666) (by norm_num) (by norm_num) (by decide) (by decide)

/-- C3 (counterexample): contrary to the claim, the word with tag nibble
0 and payload 1 is not the canonical NaN bit pattern, and `is_nanbox`
accepts it (the canonical NaN is instead tag nibble 8, payload 0). -/
theorem tag0_payload1_counterexample :
    (ThinTypeId.mk 0).tag 1 ≠ bit_utils.NAN_BITS ∧
    bit_utils.is_nanbox ((ThinTypeId.mk 0).tag 1) = true := by
  decide

/-- C3 (amended): tag nibble 0 with payload 0 coincides with canonical
Infinity, but the canonical NaN is tag nibble 8 with payload 0; among
tag-0 words with a clean non-negative payload, `is_nanbox` rejects
exactly the payload-0 word. -/
theorem tag0_collisions (p : Nat) (hp : p < 2 ^ 48) :
    (ThinTypeId.mk 0).tag 0 = bit_utils.INFINITY_BITS ∧
    (ThinTypeId.mk 8).tag 0 = bit_utils.NAN_BITS ∧
    (bit_utils.is_nanbox ((ThinTypeId.mk 0).tag p) = false ↔ p = 0) := by
  refine ⟨by decide, by decide, ?_⟩
  rw [TagFacts.tag_eq_of_nonneg (by norm_num) hp]
  have h1 : bit_utils.is_a_nan (p + 0 * 2 ^ 48 + 0x7ff * 2 ^ 52) = true := by
    rw [bit_utils.is_a_nan_iff]
    omega
  have h2 : bit_utils.is_the_nan_or_ifty (p + 0 * 2 ^ 48 + 0x7ff * 2 ^ 52) = true ↔
      p = 0 := by
    rw [bit_utils.is_the_nan_or_ifty_iff]
    omega
  simp only [bit_utils.is_nanbox, h1, Bool.true_and, Bool.not_eq_false', h2]

/-- C3 (witness): the amended statement at p = 1: tag-0 payload-1 is a
valid nanbox (`is_nanbox` does not reject it). -/
theorem tag0_collisions_witness :
    (ThinTypeId.mk 0).tag 0 = bit_utils.INFINITY_BITS ∧
    (ThinTypeId.mk 8).tag 0 = bit_utils.NAN_BITS ∧
    (bit_utils.is_nanbox ((ThinTypeId.mk 0).tag 1) = false ↔ (1 : Nat) = 0) :=
  tag0_collisions 1 (by norm_num)

/-- C4: `is_the_nan_or_ifty` is true for exactly the four 64-bit patterns
+Infinity, −Infinity, the platform quiet NaN and the quiet NaN with the
sign bit set, and `is_nanbox` is false for each of those four patterns. -/
theorem special_float_classification (n : Nat) (hn : n < 2 ^ 64) :
    (bit_utils.is_the_nan_or_ifty n = true ↔
      n = 0x7ff0000000000000 ∨ n = 0xfff0000000000000 ∨
      n = 0x7ff8000000000000 ∨ n = 0xfff8000000000000) ∧
    bit_utils.is_nanbox 0x7ff0000000000000 = false ∧
    bit_utils.is_nanbox 0xfff0000000000000 = false ∧
    bit_utils.is_nanbox 0x7ff8000000000000 = false ∧
    bit_utils.is_nanbox 0xfff8000000000000 = false := by
  refine ⟨?_, by decide, by decide, by decide, by decide⟩
  rw [bit_utils.is_the_nan_or_ifty_iff]
  omega

/-- C4 (witness): the classification applied at n = −Infinity's pattern. -/
theorem special_float_classification_witness :
    (bit_utils.is_the_nan_or_ifty 0xfff0000000000000 = true ↔
      (0xfff0000000000000 : Nat) = 0x7ff0000000000000 ∨
      (0xfff0000000000000 : Nat) = 0xfff0000000000000 ∨
      (0xfff0000000000000 : Nat) = 0x7ff8000000000000 ∨
      (0xfff0000000000000 : Nat) = 0xfff8000000000000) ∧
    bit_utils.is_nanbox 0x7ff0000000000000 = false ∧
    bit_utils.is_nanbox 0xfff0000000000000 = false ∧
    bit_utils.is_nanbox 0x7ff8000000000000 = false ∧
    bit_utils.is_nanbox 0xfff8000000000000 = false :=
  special_float_classification 0xfff0000000000000 (by norm_num)

/-- C5 (counterexample): `nan_tag` does not clear the tag region: at the
word with only bit 48 set, the result's tag nibble is 1, not 0. -/
theorem nan_tag_counterexample :
    ¬(bit_utils.nan_tag 0x1000000000000 &&& bit_utils.TAG_MASK = 0) ∧
    bit_utils.tag_of (bit_utils.nan_tag 0x1000000000000) = 1 := by
  decide

/-- C5 (amended): `nan_tag` sets the exponent field (bits 52–62) to all
ones and agrees with its input on bits 0–51 (payload and tag region — the
tag region is preserved, not cleared; `tag` clears it separately) and on
the sign bit 63. -/
theorem nan_tag_frame (w : Nat) (hw : w < 2 ^ 64) :
    bit_utils.nan_tag w / 2 ^ 52 % 2 ^ 11 = 0x7ff ∧
    bit_utils.nan_tag w % 2 ^ 52 = w % 2 ^ 52 ∧
    bit_utils.nan_tag w / 2 ^ 63 = w / 2 ^ 63 := by
  rw [bit_utils.nan_tag, bit_utils.NAN_MASK, BitLemmas.or_shiftLeft_eval,
    show (0x7ff : Nat) = 2 ^ 11 - 1 by norm_num, BitLemmas.or_ones_eval,
    Nat.div_div_eq_div_mul, show (2 ^ 52 * 2 ^ 11 : Nat) = 2 ^ 63 by norm_num]
  omega

/-- C5 (witness): the amended frame property at the word with only bit 48
set. -/
theorem nan_tag_frame_witness :
    bit_utils.nan_tag 0x1000000000000 / 2 ^ 52 % 2 ^ 11 = 0x7ff ∧
    bit_utils.nan_tag 0x1000000000000 % 2 ^ 52 = 0x1000000000000 % 2 ^ 52 ∧
    bit_utils.nan_tag 0x1000000000000 / 2 ^ 63 = 0x1000000000000 / 2 ^ 63 :=
  nan_tag_frame 0x1000000000000 (by norm_num)

/-- C6: untagging under a mismatched identifier b ≠ a always fails, and
the error carries expected = b widened and found = a widened (the tag
nibble actually present in the word). -/
theorem mismatch_detection (a b p : Nat) (ha : a < 16) (hb : b < 16) (hab : a ≠ b)
    (hp : p < 2 ^ 64) (hclean : bit_utils.reserved_bits_clean p = true) :
    (ThinTypeId.mk b).try_unsigned_untag ((ThinTypeId.mk a).tag p) =
      .Err ⟨TypeId.from_thin ⟨b⟩, TypeId.from_thin ⟨a⟩⟩ := by
  have htag := TagFacts.tag_of_tag_any (t := a) p ha
  have hmatch : (ThinTypeId.mk b).matches ((ThinTypeId.mk a).tag p) = false := by
    simp [ThinTypeId.matches, htag, hab]
  rw [ThinTypeId.try_unsigned_untag, if_neg (by simp [hmatch]), htag]

/-- C6 (witness): the crate's own `try_untag` mismatch test: a word
tagged 0xa untagged under 0xc. -/
theorem mismatch_detection_witness :
    (ThinTypeId.mk 0xc).try_unsigned_untag ((ThinTypeId.mk 0xa).tag 12345) =
      .Err ⟨TypeId.from_thin ⟨0xc⟩, TypeId.from_thin ⟨0xa⟩⟩ :=
  mismatch_detection 0xa 0xc 12345 (by norm_num) (by norm_num) (by norm_num)
    (by norm_num) (by decide)

/-- C7: narrowing a `TypeId` with numeric value v succeeds with
`ThinTypeId v` iff v ≤ 15, and otherwise fails with a
`TypeIdTooLargeError` carrying the offending `TypeId v`. -/
theorem narrowing_totality (v : Nat) :
    (ThinTypeId.try_from ⟨v⟩ = .Ok ⟨v⟩ ↔ v ≤ 15) ∧
    (15 < v → ThinTypeId.try_from ⟨v⟩ = .Err ⟨⟨v⟩⟩) := by
  by_cases h : v ≤ 15
  · constructor
    · simp [ThinTypeId.try_from, h, Nat.mod_eq_of_lt (show v < 256 by omega)]
    · intro h15
      exact absurd h15 (by omega)
  · constructor
    · simp [ThinTypeId.try_from, h]
    · intro _
      simp [ThinTypeId.try_from, h]

/-- C7 (witness): narrowing succeeds at v = 2 and fails at v = 0xffff
(the crate's own conversion tests). -/
theorem narrowing_totality_witness :
    ((ThinTypeId.try_from ⟨2⟩ = .Ok ⟨2⟩ ↔ (2 : Nat) ≤ 15) ∧
      (15 < (2 : Nat) → ThinTypeId.try_from ⟨2⟩ = .Err ⟨⟨2⟩⟩)) ∧
    (15 < (0xffff : Nat) → ThinTypeId.try_from ⟨0xffff⟩ = .Err ⟨⟨0xffff⟩⟩) :=
  ⟨narrowing_totality 2, (narrowing_totality 0xffff).2⟩

/-- C8: the tag nibble extracted from a word tagged with t (on a clean
payload, non-negative or negative) is t itself. -/
theorem tag_extraction (t p : Nat) (ht : t < 16) (hp : p < 2 ^ 64)
    (hclean : bit_utils.reserved_bits_clean p = true) :
    bit_utils.tag_of ((ThinTypeId.mk t).tag p) = t :=
  TagFacts.tag_of_tag_any p ht

/-- C8 (witness): tag extraction at t = 0xa, p = 12345 (the crate's
`tagged_nan` test). -/
theorem tag_extraction_witness :
    bit_utils.tag_of ((ThinTypeId.mk 0xa).tag 12345) = 0xa :=
  tag_extraction 0xa 12345 (by norm_num) (by norm_num) (by decide)

/-- C9 (counterexample): the claimed existence of a non-clean payload
whose tagging corrupts the tag nibble is false: `tag` clears payload bits
48–51 before inserting the tag nibble, so the nibble always survives. -/
theorem dirty_payload_counterexample :
    ¬ ∃ t p, t < 16 ∧ p < 2 ^ 64 ∧ bit_utils.reserved_bits_clean p = false ∧
      bit_utils.tag_of ((ThinTypeId.mk t).tag p) ≠ t := by
  rintro ⟨t, p, ht, _hp, _hclean, hne⟩
  exact hne (TagFacts.tag_of_tag_any p ht)

/-- C9 (amended): tagging any payload, clean or not, leaves the tag
nibble equal to t; the silent corruption caused by a non-clean payload is
in the payload instead: untagging the word built from the non-clean
payload 2^48 under tag 1 returns `Ok 0`, not the original payload. -/
theorem dirty_payload_tag_nibble_intact (t p : Nat) (ht : t < 16) :
    bit_utils.tag_of ((ThinTypeId.mk t).tag p) = t ∧
    (ThinTypeId.mk 1).try_unsigned_untag ((ThinTypeId.mk 1).tag 0x1000000000000) =
      .Ok 0 :=
  ⟨TagFacts.tag_of_tag_any p ht, by decide⟩

/-- C9 (witness): the amended statement at t = 3 and the non-clean
payload with only bit 49 set. -/
theorem dirty_payload_tag_nibble_intact_witness :
    bit_utils.tag_of ((ThinTypeId.mk 3).tag 0x2000000000000) = 3 ∧
    (ThinTypeId.mk 1).try_unsigned_untag ((ThinTypeId.mk 1).tag 0x1000000000000) =
      .Ok 0 :=
  dirty_payload_tag_nibble_intact 3 0x2000000000000 (by norm_num)

/-- C10: narrowing after widening a `ThinTypeId` with value v in 0..15
gives back the same `ThinTypeId`, and widening the result of a successful
narrowing of a `TypeId` with value v ≤ 15 gives back the same `TypeId`. -/
theorem narrow_widen_roundtrip (v : Nat) (hv : v ≤ 15) :
    ThinTypeId.try_from (TypeId.from_thin ⟨v⟩) = .Ok ⟨v⟩ ∧
    (ThinTypeId.try_from ⟨v⟩).map TypeId.from_thin = .Ok ⟨v⟩ := by
  have hv256 : v % 256 = v := Nat.mod_eq_of_lt (by omega)
  constructor
  · simp [TypeId.from_thin, ThinTypeId.try_from, hv, hv256]
  · simp [ThinTypeId.try_from, hv, hv256, Result.map, TypeId.from_thin]

/-- C10 (witness): both round-trips at v = 2. -/
theorem narrow_widen_roundtrip_witness :
    ThinTypeId.try_from (TypeId.from_thin ⟨2⟩) = .Ok ⟨2⟩ ∧
    (ThinTypeId.try_from ⟨2⟩).map TypeId.from_thin = .Ok ⟨2⟩ :=
  narrow_widen_roundtrip 2 (by norm_num)

end SaturnTagging
